import Mathlib

/-!
A shallow embedding of `src/modules/module-protocol-pulse/modules/
module-ladspa-source.c`: property bags, argument partitioning, graph document
serialization and the module lifecycle binding, together with theorems about
the behaviour of `create_module_ladspa_source`, `module_ladspa_source_load`,
`module_ladspa_source_unload` and `module_destroy`.

Collaborator code that lives in the repository but outside the sources given
here (the argument parser `module_args_add_props`, the audio format resolver
`module_args_to_audioinfo`, the channel name table `channel_id2name`, and the
`spa_json_*` helpers) is modelled from the specification; each such definition
carries a doc comment saying so.
-/

/-- A property bag: an ordered list of key/value entries.  Lookup returns the
first entry with the key, as in `pw_properties` / `spa_dict`. -/
abbrev Props := List (String × String)

/-- `pw_properties_get`: the first entry with the given key, if any. -/
def pw_properties_get (p : Props) (k : String) : Option String :=
  match p with
  | [] => none
  | kv :: t => if kv.1 = k then some kv.2 else pw_properties_get t k

/-- Replace the first entry holding key `k` in place, or append a fresh entry
when the key is absent (`pw_properties_set` with a non-NULL value). -/
def setKey (p : Props) (k w : String) : Props :=
  match p with
  | [] => [(k, w)]
  | kv :: t => if kv.1 = k then (k, w) :: t else kv :: setKey t k w

/-- Remove the first entry holding key `k` (`pw_properties_set` with NULL). -/
def eraseKey (p : Props) (k : String) : Props :=
  match p with
  | [] => []
  | kv :: t => if kv.1 = k then t else kv :: eraseKey t k

/-- `pw_properties_set`: a NULL value removes the key, otherwise the value is
replaced in place or appended. -/
def pw_properties_set (p : Props) (k : String) (v : Option String) : Props :=
  match v with
  | some w => setKey p k w
  | none => eraseKey p k

/-- The keys of a bag are pairwise distinct.  Holds for every bag built by
`pw_properties`, which never stores a duplicate key. -/
def keysNodup (p : Props) : Prop := (p.map Prod.fst).Nodup

instance (p : Props) : Decidable (keysNodup p) := by
  unfold keysNodup; infer_instance

/-- Decidable substring test on the character lists (needle, haystack). -/
def strStartsList (n h : List Char) : Bool :=
  match n, h with
  | [], _ => true
  | _ :: _, [] => false
  | a :: n2, b :: h2 => a = b && strStartsList n2 h2

def strHasSubList (n h : List Char) : Bool :=
  match h with
  | [] => strStartsList n []
  | _ :: t => strStartsList n h || strHasSubList n t

/-- `strHasSub needle hay` is true when `needle` occurs in `hay`. -/
def strHasSub (n h : String) : Bool := strHasSubList n.data h.data

/-- Modelled from the spec: `spa_json_is_null` (spa json helpers are repository
code not under `src/`): the value parses as the literal `null`. -/
def spa_json_is_null (s : String) : Bool := s = "null"

def dropSign (cs : List Char) : List Char :=
  match cs with
  | '+' :: t => t
  | '-' :: t => t
  | t => t

/-- Modelled from the spec: `spa_json_is_float` (repository code not under
`src/`): the value parses as a floating-point number — optional sign, digits
with an optional fractional part, optional exponent. -/
def spa_json_is_float (s : String) : Bool :=
  let cs := dropSign s.data
  let ip := cs.takeWhile Char.isDigit
  let r1 := cs.dropWhile Char.isDigit
  let fr : Option (List Char × List Char) :=
    match r1 with
    | '.' :: t => some (t.takeWhile Char.isDigit, t.dropWhile Char.isDigit)
    | _ => none
  let digitsOk := !ip.isEmpty || (match fr with
    | some f => !f.1.isEmpty
    | none => false)
  let r2 := match fr with
    | some f => f.2
    | none => r1
  let expOk := match r2 with
    | [] => true
    | e :: t => (e = 'e' || e = 'E') &&
        (let u := dropSign t; !u.isEmpty && u.all Char.isDigit)
  digitsOk && expOk

/-- Modelled from the spec: `spa_json_is_object` (repository code not under
`src/`): the value is an already-formed structured object, i.e. it begins
with a brace or a bracket. -/
def spa_json_is_object (s : String) : Bool :=
  match s.data with
  | [] => false
  | c :: _ => c = '\x7b' || c = '['

/-- Backslash-escape every double quote and backslash. -/
def escapeList (cs : List Char) : List Char :=
  match cs with
  | [] => []
  | c :: t =>
      if c = '"' ∨ c = '\\' then '\\' :: c :: escapeList t
      else c :: escapeList t

/-- Modelled from the spec: `spa_json_encode_string` (repository code not
under `src/`): render the value as a quoted escaped string. -/
def spa_json_encode_string (s : String) : String :=
  "\"" ++ String.mk (escapeList s.data) ++ "\""

/-- The value rendering of `serialize_dict` (module-ladspa-source.c, lines
71-82): an absent value prints as the bareword `null`; a null literal, float
or structured value prints verbatim; anything else prints quoted/escaped. -/
def serialize_value (v : Option String) : String :=
  match v with
  | none => "null"
  | some s =>
      if spa_json_is_null s || spa_json_is_float s || spa_json_is_object s
      then s
      else spa_json_encode_string s

/-- One `serialize_dict` iteration: ` "<key>" = <rendered value>`. -/
def serialize_item (kv : String × Option String) : String :=
  " \"" ++ kv.1 ++ "\" = " ++ serialize_value kv.2

/-- `serialize_dict` (module-ladspa-source.c, lines 65-84). -/
def serialize_dict (d : List (String × Option String)) : String :=
  String.join (d.map serialize_item)

/-- A `pw_properties` bag viewed as the `spa_dict` handed to
`serialize_dict`; `pw_properties` never stores a NULL value. -/
def propsDict (p : Props) : List (String × Option String) :=
  p.map (fun kv => (kv.1, some kv.2))

/-- The canonical channel position names of the spa audio channel enum
(the part of the table this development exercises). -/
def channelNames : List (Nat × String) :=
  [(1, "NA"), (2, "MONO"), (3, "FL"), (4, "FR"), (5, "FC"), (6, "LFE"),
   (7, "SL"), (8, "SR"), (9, "FLC"), (10, "FRC"), (11, "RC"), (12, "RL"),
   (13, "RR")]

/-- Modelled from the spec: `channel_id2name` (defs.h, not under `src/`) maps
a channel position id to its canonical short textual name. -/
def channel_id2name (id : Nat) : String :=
  ((channelNames.find? (fun kv => kv.1 = id)).map Prod.snd).getD "UNK"

/-- Modelled from the spec: the inverse channel-name lookup used when parsing
`channel_map` (repository code not under `src/`). -/
def channel_name2id (s : String) : Option Nat :=
  (channelNames.find? (fun kv => kv.2 = s)).map Prod.fst

/-- `struct spa_audio_info_raw`, restricted to the fields this module uses. -/
structure spa_audio_info_raw where
  rate : Nat
  channels : Nat
  position : List Nat
deriving DecidableEq

/-- Digits-only natural number parser for `rate` / `channels` values. -/
def natFromStr (s : String) : Option Nat :=
  if s.data ≠ [] ∧ s.data.all Char.isDigit then
    some (s.data.foldl (fun n c => n * 10 + (c.toNat - 48)) 0)
  else none

/-- Split a character list at commas. -/
def splitComma (cs : List Char) : List (List Char) :=
  match cs with
  | [] => [[]]
  | c :: t =>
      if c = ',' then [] :: splitComma t
      else
        match splitComma t with
        | h :: r => (c :: h) :: r
        | [] => [[c]]

def parseChannelMap (s : String) : Option (List Nat) :=
  (splitComma s.data).mapM (fun cs => channel_name2id (String.mk cs))

/-- The `rate` key: absent takes the host default, unparseable fails. -/
def resolveRate (props : Props) : Option Nat :=
  match pw_properties_get props "rate" with
  | some s => natFromStr s
  | none => some 0

/-- The `channel_map` key: absent is fine, unknown names fail. -/
def resolveChannelMap (props : Props) : Option (Option (List Nat)) :=
  match pw_properties_get props "channel_map" with
  | some s =>
      match parseChannelMap s with
      | some ps => some (some ps)
      | none => none
  | none => some none

/-- The `channels` key: absent is fine, unparseable fails. -/
def resolveChannels (props : Props) : Option (Option Nat) :=
  match pw_properties_get props "channels" with
  | some s =>
      match natFromStr s with
      | some n => some (some n)
      | none => none
  | none => some none

/-- Combine channel count and channel map into a raw audio info: the two must
agree in length, the count must be at least one, and each absent part is
defaulted from the other (both absent take the host stereo default). -/
def combineAudioInfo (rate : Nat) (posQ : Option (List Nat)) (chQ : Option Nat)
    : Option spa_audio_info_raw :=
  match posQ, chQ with
  | some pos, some n =>
      if pos.length = n ∧ 1 ≤ n then some ⟨rate, n, pos⟩ else none
  | some pos, none =>
      if 1 ≤ pos.length then some ⟨rate, pos.length, pos⟩ else none
  | none, some n =>
      if 1 ≤ n then some ⟨rate, n, List.replicate n 0⟩ else none
  | none, none => some ⟨rate, 2, [3, 4]⟩

/-- Modelled from the spec: `module_args_to_audioinfo` (module.c, not under
`src/`), the Audio Format Resolver.  Reads `rate`, `channels`, `channel_map`
from the parsed module props and produces a raw audio info; fails when a value
is unparseable or when the channel count disagrees with the channel map
length; absent keys take the host convention defaults. -/
def module_args_to_audioinfo (props : Props) : Option spa_audio_info_raw :=
  (resolveRate props).bind fun rate =>
    (resolveChannelMap props).bind fun posQ =>
      (resolveChannels props).bind fun chQ =>
        combineAudioInfo rate posQ chQ

/-- One loop iteration of `position_to_props`: the piece
`snprintf(p, 6, "%s%s", i == 0 ? "" : ",", channel_id2name(position[i]))`
formats, before truncation to five characters. -/
def position_piece (info : spa_audio_info_raw) (i : Nat) : String :=
  (if i = 0 then "" else ",") ++ channel_id2name (info.position.getD i 0)

/-- Assemble the pieces like the advancing-pointer `snprintf` loop does: each
piece is cut to five characters (`snprintf` size 6); because the pointer
advances by the untruncated length, a truncated piece leaves its terminating
NUL in place and the resulting C string stops right after it. -/
def buildTrunc (ps : List String) : String :=
  match ps with
  | [] => ""
  | p :: t => if p.length ≤ 5 then p ++ buildTrunc t else String.mk (p.data.take 5)

/-- The `audio.position` string built by `position_to_props`. -/
def positionString (info : spa_audio_info_raw) : String :=
  buildTrunc ((List.range info.channels).map (position_piece info))

/-- `position_to_props` (module-ladspa-source.c, lines 180-191). -/
def position_to_props (info : spa_audio_info_raw) (props : Props) : Props :=
  pw_properties_set
    (pw_properties_set props "audio.channels" (some (Nat.repr info.channels)))
    "audio.position" (some (positionString info))

/-- Modelled from the spec: one step of the Argument Parser.  Consumes pairs
in `key=value` syntax; a value may be bare (up to the next space) or
double-quoted with embedded spaces; an unbalanced quote fails
(`MalformedArgument`).  The fuel always suffices because every step consumes
at least one character. -/
def parsePairs (fuel : Nat) (cs : List Char) (acc : List (String × String)) :
    Option (List (String × String)) :=
  match fuel, cs with
  | _, [] => some acc.reverse
  | 0, _ :: _ => none
  | fuel + 1, c :: t =>
      if c = ' ' then parsePairs fuel t acc
      else
        let key := (c :: t).takeWhile (fun d => d ≠ '=' && d ≠ ' ')
        let rest := (c :: t).dropWhile (fun d => d ≠ '=' && d ≠ ' ')
        match rest with
        | '=' :: r =>
            match r with
            | '"' :: r2 =>
                let v := r2.takeWhile (fun d => d ≠ '"')
                match r2.dropWhile (fun d => d ≠ '"') with
                | '"' :: r4 =>
                    parsePairs fuel r4 ((String.mk key, String.mk v) :: acc)
                | _ => none
            | _ =>
                let v := r.takeWhile (fun d => d ≠ ' ')
                parsePairs fuel (r.dropWhile (fun d => d ≠ ' '))
                  ((String.mk key, String.mk v) :: acc)
        | _ => parsePairs fuel rest ((String.mk key, "") :: acc)

/-- Modelled from the spec: the Argument Parser applied to a whole argument
string. -/
def parseArgs (s : String) : Option (List (String × String)) :=
  parsePairs (s.data.length + 1) s.data []

/-- Modelled from the spec: `module_args_add_props` (module.c, not under
`src/`): parse the argument text and add every pair to the bag, later
occurrences overwriting earlier ones. -/
def module_args_add_props (p : Props) (s : String) : Option Props :=
  (parseArgs s).map (fun prs =>
    prs.foldl (fun q kv => pw_properties_set q kv.1 (some kv.2)) p)

/-- The initial module props handed to `pw_properties_new_dict`
(`module_ladspa_source_info`, module-ladspa-source.c lines 159-178). -/
def module_ladspa_source_info : Props :=
  [("module.author", "Wim Taymans <wim.taymans@gmail.com>"),
   ("module.description", "Virtual LADSPA source"),
   ("module.usage",
     "source_name=<name for the source> " ++
     "source_properties=<properties for the source> " ++
     "source_output_properties=<properties for the source output> " ++
     "master=<name of source to filter> " ++
     "source_master=<name of source to filter> " ++
     "format=<sample format> " ++
     "rate=<sample rate> " ++
     "channels=<number of channels> " ++
     "channel_map=<input channel map> " ++
     "plugin=<ladspa plugin name> " ++
     "label=<ladspa plugin label> " ++
     "control=<comma separated list of input control values> " ++
     "input_ladspaport_map=<comma separated list of input LADSPA port names> " ++
     "output_ladspaport_map=<comma separated list of output LADSPA port names> "),
   ("module.version", "PACKAGE_VERSION")]

/-- The `source_name` handling of `create_module_ladspa_source`
(lines 213-218): move the value to `node.name`, defaulting to `"null"`. -/
def partition_source_name (props : Props) : Props :=
  match pw_properties_get props "source_name" with
  | some str =>
      pw_properties_set (pw_properties_set props "node.name" (some str))
        "source_name" none
  | none => pw_properties_set props "node.name" (some "null")

/-- The `master` / `source_master` handling (lines 226-230): the playback
`node.target` takes the value (`master` first), and only the key `master` is
cleared.  Returns (playback props, module props). -/
def masterStage (props playback : Props) : Props × Props :=
  match pw_properties_get props "master" with
  | some str =>
      (pw_properties_set playback "node.target" (some str),
       pw_properties_set props "master" none)
  | none =>
      match pw_properties_get props "source_master" with
      | some str =>
          (pw_properties_set playback "node.target" (some str),
           pw_properties_set props "master" none)
      | none => (playback, props)

/-- The `media.class` default on the playback props (lines 223-224). -/
def playback_defaults : Props :=
  if (pw_properties_get ([] : Props) "media.class").isNone then
    pw_properties_set [] "media.class" (some "Audio/Source")
  else []

/-- The `node.passive` default on the capture props (lines 241-242). -/
def apply_passive_default (c : Props) : Props :=
  if (pw_properties_get c "node.passive").isNone then
    pw_properties_set c "node.passive" (some "true")
  else c

/-- The result of `create_module_ladspa_source`: the module handle owning the
three property bags and the resolved audio info. -/
structure CreateResult where
  props : Props
  capture_props : Props
  playback_props : Props
  info : spa_audio_info_raw
deriving DecidableEq

/-- `create_module_ladspa_source` after the `source_properties` handling
(lines 223-256): playback defaults, master handling, audio info resolution,
`position_to_props` on both endpoint bags and the `node.passive` default. -/
def create_after_sp (props capture : Props) : Option CreateResult :=
  let mp := masterStage props playback_defaults
  match module_args_to_audioinfo mp.2 with
  | none => none
  | some capture_info =>
      some ⟨mp.2,
            apply_passive_default (position_to_props capture_info capture),
            position_to_props capture_info mp.1,
            capture_info⟩

/-- `create_module_ladspa_source` starting from the filled module props
(lines 213-256): `source_name` partitioning, `source_properties` nested
parsing into the capture bag, then `create_after_sp`. -/
def create_from_props (props0 : Props) : Option CreateResult :=
  let props1 := partition_source_name props0
  match pw_properties_get props1 "source_properties" with
  | some str =>
      match module_args_add_props [] str with
      | none => none
      | some capture0 =>
          create_after_sp (pw_properties_set props1 "source_properties" none)
            capture0
  | none => create_after_sp props1 []

/-- `create_module_ladspa_source` (lines 193-266): the initial info props,
the parsed argument and the partitioning pipeline. -/
def create_module_ladspa_source (argument : Option String) :
    Option CreateResult :=
  match argument with
  | none => create_from_props module_ladspa_source_info
  | some a =>
      match module_args_add_props module_ladspa_source_info a with
      | none => none
      | some props0 => create_from_props props0

/-- The observable outcome of `module_ladspa_source_load`: the returned code,
the document handed to the host loader (when serialization got that far), and
whether the delegated module was loaded, the destruction hook registered, and
the memstream document buffer released (`fclose`/`free`). -/
structure LoadOutcome where
  err : Option Int
  doc : Option String
  modLoaded : Bool
  hookRegistered : Bool
  bufferReleased : Bool
deriving DecidableEq

/-- `module_ladspa_source_load` (module-ladspa-source.c, lines 86-137).
`hostLoad` models `pw_context_load_module` (success or failure) and
`hostErrno` the `errno` it leaves behind on failure.  Note that the two
`return -EINVAL` statements for a missing `plugin` / `label` leave the
memstream open: `fclose(f)` and `free(args)` are only reached on the path
that falls through serialization, so `bufferReleased` is false there. -/
def module_ladspa_source_load (hostLoad : String → Bool) (hostErrno : Int)
    (idx : Nat) (props capture playback : Props) : LoadOutcome :=
  let capture2 :=
    pw_properties_set capture "node.group"
      (some ("ladspa-source-" ++ Nat.repr idx))
  let playback2 :=
    pw_properties_set playback "node.group"
      (some ("ladspa-source-" ++ Nat.repr idx))
  match pw_properties_get props "plugin" with
  | none => ⟨some (-22), none, false, false, false⟩
  | some plugin =>
      match pw_properties_get props "label" with
      | none => ⟨some (-22), none, false, false, false⟩
      | some label =>
          let doc : String :=
            "\x7b" ++ serialize_dict (propsDict props) ++
            " filter.graph = \x7b" ++ " nodes = [ \x7b " ++
            " type = ladspa " ++
            " plugin = \"" ++ plugin ++ "\" " ++
            " label = \"" ++ label ++ "\" " ++
            (match pw_properties_get props "inputs" with
             | some s => " inputs = [ " ++ s ++ " ] "
             | none => "") ++
            (match pw_properties_get props "outputs" with
             | some s => " outputs = [ " ++ s ++ " ] "
             | none => "") ++
            " \x7d ] \x7d" ++
            " capture.props = \x7b" ++ serialize_dict (propsDict capture2) ++
            " \x7d playback.props = \x7b" ++
            serialize_dict (propsDict playback2) ++
            " \x7d \x7d"
          if hostLoad doc then ⟨none, some doc, true, true, true⟩
          else ⟨some (-hostErrno), some doc, false, false, true⟩

/-- The lifecycle state of one adapter instance: whether `d->mod` is set,
how many destruction hooks it keeps registered with the host, whether an
unload is scheduled, whether the adapter reached Unloaded, and how many times
it transitioned into Unloaded. -/
structure AdapterState where
  modPresent : Bool
  hooks : Nat
  unloadScheduled : Bool
  unloaded : Bool
  unloadedCount : Nat
deriving DecidableEq

/-- A freshly created adapter: no delegated module, no hook. -/
def initState : AdapterState :=
  ⟨false, 0, false, false, 0⟩

/-- A successful `module_ladspa_source_load` (lines 121-136): the delegated
module reference is stored and `pw_impl_module_add_listener` registers the
destruction hook. -/
def adapter_load (s : AdapterState) : AdapterState :=
  { s with modPresent := true, hooks := s.hooks + 1 }

/-- `module_ladspa_source_unload` (lines 139-151) followed by the host marking
the adapter Unloaded: when `d->mod` is present the hook is removed and the
delegated module destroyed; either way the adapter ends Unloaded, counted only
on the transition into it. -/
def module_ladspa_source_unload (s : AdapterState) : AdapterState :=
  let s2 :=
    if s.modPresent then
      { s with hooks := s.hooks - 1, modPresent := false }
    else s
  if s2.unloaded then s2
  else { s2 with unloaded := true, unloadedCount := s2.unloadedCount + 1 }

/-- `module_destroy` (lines 52-58), the destruction hook fired by the host
when the delegated module dies: remove the hook, clear `d->mod`, and schedule
(not perform) the adapter unload via `module_schedule_unload`. -/
def module_destroy (s : AdapterState) : AdapterState :=
  { s with hooks := s.hooks - 1, modPresent := false, unloadScheduled := true }

/-- Modelled from the spec: the host loop later runs the scheduled unload
(`module_schedule_unload` is module.c code not under `src/`). -/
def run_scheduled (s : AdapterState) : AdapterState :=
  if s.unloadScheduled then
    { module_ladspa_source_unload s with unloadScheduled := false }
  else s

/-- The adapter transitions: load (only while no delegated module is held),
explicit unload, host-initiated destruction of the delegated module (only
while the hook is registered, i.e. the module reference is held), and the
host loop running a scheduled unload. -/
inductive AdapterStep : AdapterState → AdapterState → Prop
  | load (s : AdapterState) (h : s.modPresent = false) :
      AdapterStep s (adapter_load s)
  | unload (s : AdapterState) : AdapterStep s (module_ladspa_source_unload s)
  | destroy (s : AdapterState) (h : s.modPresent = true) :
      AdapterStep s (module_destroy s)
  | sched (s : AdapterState) : AdapterStep s (run_scheduled s)

/-- Reachability from the freshly created adapter. -/
def AdapterReachable (s : AdapterState) : Prop :=
  Relation.ReflTransGen AdapterStep initState s

/-- The hook/reference coupling: the destruction hook count is one exactly
while the delegated-module reference is present. -/
def hookInvariant (s : AdapterState) : Prop :=
  s.hooks = if s.modPresent then 1 else 0

/-- Comma-separated concatenation of a list of names. -/
def commaJoin (ns : List String) : String :=
  match ns with
  | [] => ""
  | n :: t => n ++ String.mk ((t.map (fun m => "," ++ m)).flatMap String.data)

/-- The capture bag contributed by a `source_properties` key: its value
parsed as a nested argument string (empty bag when the key is absent). -/
def nested_source_props (props0 : Props) : Option Props :=
  match pw_properties_get props0 "source_properties" with
  | some str => module_args_add_props [] str
  | none => some []

theorem get_setKey_self (p : Props) (k w : String) :
    pw_properties_get (setKey p k w) k = some w := by
  induction p with
  | nil => simp [setKey, pw_properties_get]
  | cons kv t ih =>
      by_cases h : kv.1 = k
      · simp [setKey, h, pw_properties_get]
      · simp [setKey, h, pw_properties_get, ih]

theorem get_setKey_ne (p : Props) (k q w : String) (h : q ≠ k) :
    pw_properties_get (setKey p k w) q = pw_properties_get p q := by
  have hkq : ¬ k = q := fun hh => h hh.symm
  induction p with
  | nil => simp [setKey, pw_properties_get, hkq]
  | cons kv t ih =>
      by_cases hk : kv.1 = k
      · subst hk
        simp [setKey, pw_properties_get, hkq]
      · simp [setKey, hk, pw_properties_get, ih]

theorem get_eraseKey_ne (p : Props) (k q : String) (h : q ≠ k) :
    pw_properties_get (eraseKey p k) q = pw_properties_get p q := by
  have hkq : ¬ k = q := fun hh => h hh.symm
  induction p with
  | nil => simp [eraseKey, pw_properties_get]
  | cons kv t ih =>
      by_cases hk : kv.1 = k
      · subst hk
        simp [eraseKey, pw_properties_get, hkq]
      · simp [eraseKey, hk, pw_properties_get, ih]

theorem get_eq_none_of_not_mem (p : Props) (k : String)
    (h : k ∉ p.map Prod.fst) : pw_properties_get p k = none := by
  induction p with
  | nil => simp [pw_properties_get]
  | cons kv t ih =>
      simp only [List.map_cons, List.mem_cons] at h
      push_neg at h
      have h1 : ¬ kv.1 = k := fun hh => h.1 (hh.symm)
      simp [pw_properties_get, h1, ih h.2]

theorem eraseKey_sublist (p : Props) (k : String) :
    (eraseKey p k).Sublist p := by
  induction p with
  | nil => simp [eraseKey]
  | cons kv t ih =>
      by_cases hk : kv.1 = k
      · simp [eraseKey, hk]
      · simpa [eraseKey, hk] using List.Sublist.cons₂ kv ih

theorem keysNodup_eraseKey (p : Props) (k : String) (h : keysNodup p) :
    keysNodup (eraseKey p k) :=
  List.Nodup.sublist (List.Sublist.map Prod.fst (eraseKey_sublist p k)) h

theorem get_eraseKey_self (p : Props) (k : String) (h : keysNodup p) :
    pw_properties_get (eraseKey p k) k = none := by
  induction p with
  | nil => simp [eraseKey, pw_properties_get]
  | cons kv t ih =>
      have h2 : keysNodup t := (List.nodup_cons.mp h).2
      by_cases hk : kv.1 = k
      · subst hk
        have : kv.1 ∉ t.map Prod.fst := (List.nodup_cons.mp h).1
        simpa [eraseKey] using get_eq_none_of_not_mem t kv.1 this
      · simp [eraseKey, hk, pw_properties_get, ih h2]

theorem mem_keys_setKey (p : Props) (k w q : String) :
    q ∈ (setKey p k w).map Prod.fst ↔ q = k ∨ q ∈ p.map Prod.fst := by
  induction p with
  | nil => simp [setKey]
  | cons kv t ih =>
      by_cases hk : kv.1 = k
      · subst hk
        simp [setKey]
      · simp only [setKey, if_neg hk, List.map_cons, List.mem_cons, ih]
        tauto

theorem keysNodup_setKey (p : Props) (k w : String) (h : keysNodup p) :
    keysNodup (setKey p k w) := by
  unfold keysNodup at *
  induction p with
  | nil => simp [setKey]
  | cons kv t ih =>
      obtain ⟨h1, h2⟩ := List.nodup_cons.mp h
      by_cases hk : kv.1 = k
      · subst hk
        simpa [setKey] using List.nodup_cons.mpr ⟨h1, h2⟩
      · simp only [setKey, if_neg hk, List.map_cons]
        refine List.nodup_cons.mpr ⟨?_, ih h2⟩
        intro hmem
        rcases (mem_keys_setKey t k w kv.1).mp hmem with h3 | h3
        · exact hk h3
        · exact h1 h3

theorem get_set_self (p : Props) (k w : String) :
    pw_properties_get (pw_properties_set p k (some w)) k = some w :=
  get_setKey_self p k w

theorem get_set_ne (p : Props) (k q : String) (v : Option String) (h : q ≠ k) :
    pw_properties_get (pw_properties_set p k v) q = pw_properties_get p q := by
  cases v with
  | some w => exact get_setKey_ne p k q w h
  | none => exact get_eraseKey_ne p k q h

theorem get_set_none_self (p : Props) (k : String) (h : keysNodup p) :
    pw_properties_get (pw_properties_set p k none) k = none :=
  get_eraseKey_self p k h

theorem keysNodup_set (p : Props) (k : String) (v : Option String)
    (h : keysNodup p) : keysNodup (pw_properties_set p k v) := by
  cases v with
  | some w => exact keysNodup_setKey p k w h
  | none => exact keysNodup_eraseKey p k h

/-- String append in terms of the underlying character lists. -/
theorem strAppend_data (a b : String) : (a ++ b).data = a.data ++ b.data := rfl

theorem strAppend_assoc (a b c : String) : (a ++ b) ++ c = a ++ (b ++ c) := by
  cases a; cases b; cases c
  show String.mk _ = String.mk _
  simp [String.append]

theorem strNil_append (a : String) : "" ++ a = a := by
  cases a
  show String.mk _ = String.mk _
  simp [String.append]

theorem strLength_append (a b : String) : (a ++ b).length = a.length + b.length := by
  cases a; cases b
  simp [String.length, String.append]

theorem channel_id2name_short (id : Nat) : (channel_id2name id).length ≤ 4 := by
  unfold channel_id2name
  cases h : channelNames.find? (fun kv => kv.1 = id) with
  | none => decide
  | some kv =>
      have hm : kv ∈ channelNames := List.mem_of_find?_eq_some h
      have hall : ∀ p ∈ channelNames, (Prod.snd p).length ≤ 4 := by decide
      simpa using hall kv hm

theorem combineAudioInfo_position_length (rate : Nat)
    (posQ : Option (List Nat)) (chQ : Option Nat) (info : spa_audio_info_raw)
    (h : combineAudioInfo rate posQ chQ = some info) :
    info.position.length = info.channels := by
  unfold combineAudioInfo at h
  rcases posQ with _ | pos <;> rcases chQ with _ | n <;> simp at h
  · rw [← h]
    rfl
  · obtain ⟨_, h2⟩ := h
    rw [← h2]
    simp
  · obtain ⟨_, h2⟩ := h
    rw [← h2]
  · obtain ⟨⟨h1, _⟩, h2⟩ := h
    rw [← h2]
    exact h1

theorem audioinfo_position_length (props : Props) (info : spa_audio_info_raw)
    (h : module_args_to_audioinfo props = some info) :
    info.position.length = info.channels := by
  unfold module_args_to_audioinfo at h
  rcases hr : resolveRate props with _ | rate <;> rw [hr] at h <;> simp at h
  rcases hm : resolveChannelMap props with _ | posQ <;> rw [hm] at h <;> simp at h
  rcases hc : resolveChannels props with _ | chQ <;> rw [hc] at h <;> simp at h
  exact combineAudioInfo_position_length rate posQ chQ info h

theorem hookInvariant_step (s s2 : AdapterState) (hs : hookInvariant s)
    (h : AdapterStep s s2) : hookInvariant s2 := by
  obtain ⟨mp, hk, us, ul, uc⟩ := s
  unfold hookInvariant at *
  cases h with
  | load h =>
      simp at h
      subst h
      simp at hs
      simp [adapter_load, hs]
  | unload =>
      cases mp <;> cases ul <;> simp_all [module_ladspa_source_unload]
  | destroy h =>
      simp at h
      subst h
      simp at hs
      simp [module_destroy, hs]
  | sched =>
      cases mp <;> cases ul <;> cases us <;>
        simp_all [run_scheduled, module_ladspa_source_unload]

theorem hookInvariant_reachable (s : AdapterState) (h : AdapterReachable s) :
    hookInvariant s := by
  unfold AdapterReachable at h
  induction h with
  | refl => rfl
  | tail _ hstep ih => exact hookInvariant_step _ _ ih hstep

theorem partition_source_name_nodename (p : Props) :
    pw_properties_get (partition_source_name p) "node.name" =
      some ((pw_properties_get p "source_name").getD "null") := by
  unfold partition_source_name
  cases hs : pw_properties_get p "source_name" with
  | none => simp [get_set_self]
  | some str =>
      simp only [Option.getD_some]
      rw [get_set_ne _ _ _ _ (by decide)]
      exact get_set_self ..

theorem partition_source_name_sourcename (p : Props) (h : keysNodup p) :
    pw_properties_get (partition_source_name p) "source_name" = none := by
  unfold partition_source_name
  cases hs : pw_properties_get p "source_name" with
  | none =>
      rw [get_set_ne _ _ _ _ (by decide)]
      exact hs
  | some str =>
      exact get_set_none_self _ _ (keysNodup_set p "node.name" (some str) h)

theorem partition_source_name_ne (p : Props) (q : String)
    (h1 : q ≠ "node.name") (h2 : q ≠ "source_name") :
    pw_properties_get (partition_source_name p) q = pw_properties_get p q := by
  unfold partition_source_name
  cases hs : pw_properties_get p "source_name" with
  | none => exact get_set_ne _ _ _ _ h1
  | some str => rw [get_set_ne _ _ _ _ h2, get_set_ne _ _ _ _ h1]

theorem keysNodup_partition_source_name (p : Props) (h : keysNodup p) :
    keysNodup (partition_source_name p) := by
  unfold partition_source_name
  cases pw_properties_get p "source_name" with
  | none => exact keysNodup_set _ _ _ h
  | some str => exact keysNodup_set _ _ _ (keysNodup_set _ _ _ h)

theorem masterStage_props_master (P pb : Props) (h : keysNodup P) :
    pw_properties_get (masterStage P pb).2 "master" = none := by
  unfold masterStage
  cases hm : pw_properties_get P "master" with
  | some str => simpa using get_set_none_self P "master" h
  | none =>
      cases hsm : pw_properties_get P "source_master" with
      | some str => simpa using get_set_none_self P "master" h
      | none => simpa using hm

theorem masterStage_props_ne (P pb : Props) (q : String) (h : q ≠ "master") :
    pw_properties_get (masterStage P pb).2 q = pw_properties_get P q := by
  unfold masterStage
  cases hm : pw_properties_get P "master" with
  | some str => simpa using get_set_ne P "master" q none h
  | none =>
      cases hsm : pw_properties_get P "source_master" with
      | some str => simpa using get_set_ne P "master" q none h
      | none => simp

theorem masterStage_playback_ne (P pb : Props) (q : String)
    (h : q ≠ "node.target") :
    pw_properties_get (masterStage P pb).1 q = pw_properties_get pb q := by
  unfold masterStage
  cases hm : pw_properties_get P "master" with
  | some str => simpa using get_set_ne pb "node.target" q (some str) h
  | none =>
      cases hsm : pw_properties_get P "source_master" with
      | some str => simpa using get_set_ne pb "node.target" q (some str) h
      | none => simp

theorem masterStage_target_master (P pb : Props) (v : String)
    (h : pw_properties_get P "master" = some v) :
    pw_properties_get (masterStage P pb).1 "node.target" = some v := by
  unfold masterStage
  simp only [h]
  exact get_set_self ..

theorem masterStage_target_source_master (P pb : Props) (v : String)
    (h1 : pw_properties_get P "master" = none)
    (h2 : pw_properties_get P "source_master" = some v) :
    pw_properties_get (masterStage P pb).1 "node.target" = some v := by
  unfold masterStage
  simp only [h1, h2]
  exact get_set_self ..

theorem position_to_props_channels (info : spa_audio_info_raw) (p : Props) :
    pw_properties_get (position_to_props info p) "audio.channels" =
      some (Nat.repr info.channels) := by
  unfold position_to_props
  rw [get_set_ne _ _ _ _ (by decide)]
  exact get_set_self ..

theorem position_to_props_position (info : spa_audio_info_raw) (p : Props) :
    pw_properties_get (position_to_props info p) "audio.position" =
      some (positionString info) :=
  get_set_self ..

theorem position_to_props_ne (info : spa_audio_info_raw) (p : Props)
    (q : String) (h1 : q ≠ "audio.channels") (h2 : q ≠ "audio.position") :
    pw_properties_get (position_to_props info p) q = pw_properties_get p q := by
  unfold position_to_props
  rw [get_set_ne _ _ _ _ h2, get_set_ne _ _ _ _ h1]

theorem apply_passive_default_passive (c : Props) :
    pw_properties_get (apply_passive_default c) "node.passive" =
      some ((pw_properties_get c "node.passive").getD "true") := by
  unfold apply_passive_default
  cases hc : pw_properties_get c "node.passive" with
  | none => simp [hc, get_set_self]
  | some v => simp [hc]

theorem apply_passive_default_ne (c : Props) (q : String)
    (h : q ≠ "node.passive") :
    pw_properties_get (apply_passive_default c) q = pw_properties_get c q := by
  unfold apply_passive_default
  cases hc : pw_properties_get c "node.passive" with
  | none => simp [hc, get_set_ne _ _ _ _ h]
  | some v => simp [hc]

theorem playback_defaults_eq :
    playback_defaults = [("media.class", "Audio/Source")] := rfl

theorem create_after_sp_shape (P C : Props) (r : CreateResult)
    (h : create_after_sp P C = some r) :
    module_args_to_audioinfo (masterStage P playback_defaults).2 = some r.info ∧
    r.props = (masterStage P playback_defaults).2 ∧
    r.capture_props = apply_passive_default (position_to_props r.info C) ∧
    r.playback_props =
      position_to_props r.info (masterStage P playback_defaults).1 := by
  unfold create_after_sp at h
  dsimp only [] at h
  split at h
  next heq => exact absurd h (by simp)
  next info heq =>
    injection h with h2
    subst h2
    exact ⟨heq, rfl, rfl, rfl⟩

theorem create_from_props_shape (props0 : Props) (r : CreateResult)
    (h : create_from_props props0 = some r) :
    (pw_properties_get (partition_source_name props0) "source_properties"
        = none ∧
      create_after_sp (partition_source_name props0) [] = some r) ∨
    (∃ str C,
      pw_properties_get (partition_source_name props0) "source_properties"
        = some str ∧
      module_args_add_props [] str = some C ∧
      create_after_sp
        (pw_properties_set (partition_source_name props0)
          "source_properties" none) C = some r) := by
  unfold create_from_props at h
  dsimp only [] at h
  split at h
  next str heq =>
    split at h
    next => exact absurd h (by simp)
    next C heq2 => exact Or.inr ⟨str, C, heq, heq2, h⟩
  next heq => exact Or.inl ⟨heq, h⟩

set_option maxRecDepth 8000 in
/-- **C1** (code divergence): with the documented keys
`input_ladspaport_map=in1,in2 output_ladspaport_map=out1` supplied, the
serialized document contains no `inputs = [ ... ]` / `outputs = [ ... ]`
entry in the LADSPA node at all — the load path only consults keys named
`inputs` / `outputs` — and the map keys are instead rendered as plain quoted
module properties. -/
theorem input_ladspaport_map_not_forwarded :
    ((create_from_props
        [("plugin", "p"), ("label", "l"),
         ("input_ladspaport_map", "in1,in2"), ("output_ladspaport_map", "out1"),
         ("rate", "48000"), ("channels", "2"), ("channel_map", "FL,FR")]).map
      (fun r =>
        ((module_ladspa_source_load (fun _ => true) 5 0
            r.props r.capture_props r.playback_props).doc.map
          (fun d => (strHasSub " inputs = [ " d, strHasSub " outputs = [ " d,
                     strHasSub "\"input_ladspaport_map\" = \"in1,in2\"" d,
                     strHasSub "\"output_ladspaport_map\" = \"out1\"" d)))))
      = some (some (false, false, true, true)) := by decide

/-- **C2** (code divergence): a `source_output_properties` key is never
consumed by `create_module_ladspa_source`: the key stays in the module props
untouched and the playback props receive nothing from its nested argument
string. -/
theorem source_output_properties_not_consumed :
    (create_from_props
        [("plugin", "p"), ("label", "l"),
         ("source_output_properties", "node.target=forced"),
         ("rate", "48000"), ("channels", "1"), ("channel_map", "MONO")]).map
      (fun r => (pw_properties_get r.props "source_output_properties",
                 pw_properties_get r.playback_props "node.target"))
      = some (some "node.target=forced", none) := by decide

set_option maxRecDepth 8000 in
/-- **C3** (counterexample): with only `source_master=hw_in` supplied the
value is consumed — playback `node.target` becomes `hw_in` — yet the
`source_master` key is still present in the module props afterwards, so the
claim that both forms are removed once consumed is false. -/
theorem source_master_not_removed :
    (create_module_ladspa_source
        (some "source_master=hw_in plugin=p label=l rate=48000 channels=1 channel_map=MONO")).map
      (fun r => (pw_properties_get r.props "source_master",
                 pw_properties_get r.playback_props "node.target"))
      = some (some "hw_in", some "hw_in") := by decide

/-- **C5** (code divergence, evaluated at the failing inputs): when `plugin`
(resp. `label`) is absent, `module_ladspa_source_load` returns `-EINVAL`
without loading a delegated module or registering a hook — but also without
closing the memstream: the document buffer is NOT released before the error
return, contradicting the claim that all buffers are released. -/
theorem missing_plugin_label_leaks_buffer :
    (module_ladspa_source_load (fun _ => true) 5 0 [("label", "l")] [] [] =
      ⟨some (-22), none, false, false, false⟩) ∧
    (module_ladspa_source_load (fun _ => true) 5 0 [("plugin", "p")] [] [] =
      ⟨some (-22), none, false, false, false⟩) := by decide

/-- **C8**: the destruction-hook count is one exactly while the
delegated-module reference is present (in every reachable adapter state);
after a successful load followed by an unload zero hooks remain registered;
and a host-initiated destruction of the delegated module, once the scheduled
unload runs, gives Unloaded exactly once, with a subsequent explicit unload a
no-op. -/
theorem lifecycle_hook_invariant :
    (∀ s : AdapterState, AdapterReachable s →
        s.hooks = if s.modPresent then 1 else 0) ∧
    (module_ladspa_source_unload (adapter_load initState)).hooks = 0 ∧
    ((run_scheduled (module_destroy (adapter_load initState))).unloaded = true ∧
     (run_scheduled (module_destroy (adapter_load initState))).unloadedCount = 1 ∧
     module_ladspa_source_unload
         (run_scheduled (module_destroy (adapter_load initState))) =
       run_scheduled (module_destroy (adapter_load initState))) := by
  refine ⟨?_, by decide, by decide, by decide, by decide⟩
  intro s hs
  exact hookInvariant_reachable s hs

/-- Witness for **C8** at the initial state. -/
theorem lifecycle_hook_invariant_witness :
    AdapterReachable initState ∧
    initState.hooks = if initState.modPresent then 1 else 0 :=
  ⟨Relation.ReflTransGen.refl,
   lifecycle_hook_invariant.1 initState Relation.ReflTransGen.refl⟩

theorem spa_json_is_null_iff (s : String) :
    spa_json_is_null s = true ↔ s = "null" := by
  simp [spa_json_is_null]

theorem spa_json_is_object_iff (s : String) :
    spa_json_is_object s = true ↔
      s.data.head? = some '\x7b' ∨ s.data.head? = some '[' := by
  unfold spa_json_is_object
  cases s.data with
  | nil => simp
  | cons c t =>
      simp only [List.head?_cons, Bool.or_eq_true, decide_eq_true_eq,
        Option.some_inj]

/-- **C4**: `serialize_dict` renders each pair as ` "<key>" = <value>` where
an absent value prints as the bareword `null`; a value that is the literal
`null`, parses as a floating-point number, or begins with a brace or bracket
prints verbatim; and every other value prints as a quoted escaped string. -/
theorem serialize_dict_value_rendering (d : List (String × Option String)) :
    serialize_dict d = String.join (d.map serialize_item) ∧
    (∀ k : String,
      serialize_item (k, none) = " \"" ++ k ++ "\" = " ++ "null") ∧
    (∀ k s : String,
      (s = "null" ∨ spa_json_is_float s = true ∨
        s.data.head? = some '\x7b' ∨ s.data.head? = some '[') →
      serialize_item (k, some s) = " \"" ++ k ++ "\" = " ++ s) ∧
    (∀ k s : String,
      ¬ (s = "null" ∨ spa_json_is_float s = true ∨
        s.data.head? = some '\x7b' ∨ s.data.head? = some '[') →
      serialize_item (k, some s) =
        " \"" ++ k ++ "\" = " ++ spa_json_encode_string s) := by
  refine ⟨rfl, fun k => rfl, ?_, ?_⟩
  · intro k s h
    have hc : (spa_json_is_null s || spa_json_is_float s ||
        spa_json_is_object s) = true := by
      rcases h with h | h | h | h
      · simp [spa_json_is_null_iff, h]
      · simp [h]
      · simp [(spa_json_is_object_iff s).mpr (Or.inl h)]
      · simp [(spa_json_is_object_iff s).mpr (Or.inr h)]
    unfold serialize_item serialize_value
    simp [hc]
  · intro k s h
    push_neg at h
    obtain ⟨h1, h2, h3, h4⟩ := h
    have hc : (spa_json_is_null s || spa_json_is_float s ||
        spa_json_is_object s) = true → False := by
      intro hb
      simp only [Bool.or_eq_true] at hb
      rcases hb with (hb | hb) | hb
      · exact h1 ((spa_json_is_null_iff s).mp hb)
      · exact h2 hb
      · rcases (spa_json_is_object_iff s).mp hb with hb2 | hb2
        · exact h3 hb2
        · exact h4 hb2
    unfold serialize_item serialize_value
    dsimp only []
    rw [if_neg hc]

/-- Witness for **C4**: a float value is inserted verbatim, an ordinary text
value is quoted and escaped. -/
theorem serialize_dict_value_rendering_witness :
    serialize_item ("key", some "7.5") = " \"" ++ "key" ++ "\" = " ++ "7.5" ∧
    serialize_item ("key", some "value x") =
      " \"" ++ "key" ++ "\" = " ++ spa_json_encode_string "value x" :=
  ⟨(serialize_dict_value_rendering []).2.2.1 "key" "7.5" (by decide),
   (serialize_dict_value_rendering []).2.2.2 "key" "value x" (by decide)⟩

theorem buildTrunc_tail (t : List Nat) :
    buildTrunc ((List.range t.length).map
        (fun i => "," ++ channel_id2name (t.getD i 0)))
      = String.mk (((t.map channel_id2name).map
          (fun m => "," ++ m)).flatMap String.data) := by
  induction t with
  | nil => rfl
  | cons b u ih =>
      rw [List.length_cons, List.range_succ_eq_map]
      simp only [List.map_cons, List.map_map]
      have hlen : ("," ++ channel_id2name ((b :: u).getD 0 0)).length ≤ 5 := by
        rw [strLength_append]
        have h1 := channel_id2name_short ((b :: u).getD 0 0)
        have h2 : ("," : String).length = 1 := rfl
        omega
      unfold buildTrunc
      rw [if_pos hlen]
      have harg :
          (List.range u.length).map
              ((fun i => "," ++ channel_id2name ((b :: u).getD i 0)) ∘ Nat.succ)
            = (List.range u.length).map
              (fun i => "," ++ channel_id2name (u.getD i 0)) := by
        apply List.map_congr_left
        intro i _
        simp [Function.comp, List.getD_cons_succ]
      rw [harg, ih]
      cases hcn : channel_id2name ((b :: u).getD 0 0)
      simp [List.getD_cons_zero] at hcn
      show String.mk _ = String.mk _
      simp [String.append, List.getD_cons_zero, hcn]

theorem positionString_eq (info : spa_audio_info_raw)
    (h : info.position.length = info.channels) :
    positionString info = commaJoin (info.position.map channel_id2name) := by
  unfold positionString
  rw [← h]
  cases hl : info.position with
  | nil => rfl
  | cons a t =>
      rw [List.length_cons, List.range_succ_eq_map]
      simp only [List.map_cons, List.map_map]
      have hpiece0 : position_piece info 0 = "" ++ channel_id2name a := by
        unfold position_piece
        simp [hl]
      have hlen : (position_piece info 0).length ≤ 5 := by
        rw [hpiece0, strNil_append]
        have := channel_id2name_short a
        omega
      unfold buildTrunc
      rw [if_pos hlen, hpiece0, strNil_append]
      have harg :
          (List.range t.length).map (position_piece info ∘ Nat.succ)
            = (List.range t.length).map
              (fun i => "," ++ channel_id2name (t.getD i 0)) := by
        apply List.map_congr_left
        intro i _
        unfold position_piece
        simp [Function.comp, hl, List.getD_cons_succ]
      rw [harg, buildTrunc_tail]
      rfl

theorem create_decomp (props0 : Props) (r : CreateResult)
    (h : create_from_props props0 = some r) :
    ∃ P C : Props,
      create_after_sp P C = some r ∧
      nested_source_props props0 = some C ∧
      (∀ q : String, q ≠ "node.name" → q ≠ "source_name" →
        q ≠ "source_properties" →
        pw_properties_get P q = pw_properties_get props0 q) ∧
      pw_properties_get P "node.name" =
        some ((pw_properties_get props0 "source_name").getD "null") ∧
      (keysNodup props0 →
        keysNodup P ∧
        pw_properties_get P "source_name" = none ∧
        pw_properties_get P "source_properties" = none) := by
  have hsp0 : pw_properties_get (partition_source_name props0)
      "source_properties" = pw_properties_get props0 "source_properties" :=
    partition_source_name_ne props0 "source_properties" (by decide) (by decide)
  rcases create_from_props_shape props0 r h with ⟨heq, hsp⟩ | ⟨str, C, heq, hadd, hsp⟩
  · refine ⟨partition_source_name props0, [], hsp, ?_, ?_, ?_, ?_⟩
    · unfold nested_source_props
      rw [← hsp0, heq]
    · intro q h1 h2 _
      exact partition_source_name_ne props0 q h1 h2
    · exact partition_source_name_nodename props0
    · intro hnd
      exact ⟨keysNodup_partition_source_name props0 hnd,
        partition_source_name_sourcename props0 hnd, heq⟩
  · refine ⟨pw_properties_set (partition_source_name props0)
      "source_properties" none, C, hsp, ?_, ?_, ?_, ?_⟩
    · unfold nested_source_props
      rw [← hsp0, heq]
      exact hadd
    · intro q h1 h2 h3
      rw [get_set_ne _ _ _ _ h3]
      exact partition_source_name_ne props0 q h1 h2
    · rw [get_set_ne _ _ _ _ (by decide)]
      exact partition_source_name_nodename props0
    · intro hnd
      have hnd1 := keysNodup_partition_source_name props0 hnd
      refine ⟨keysNodup_set _ _ _ hnd1, ?_, get_set_none_self _ _ hnd1⟩
      rw [get_set_ne _ _ _ _ (by decide)]
      exact partition_source_name_sourcename props0 hnd

/-- **C9**: when both `master` and `source_master` are supplied, the value of
`master` takes precedence: playback `node.target` is set to the `master`
value. -/
theorem master_precedence (props0 : Props) (r : CreateResult) (v w : String)
    (hc : create_from_props props0 = some r)
    (hm : pw_properties_get props0 "master" = some v)
    (_hsm : pw_properties_get props0 "source_master" = some w) :
    pw_properties_get r.playback_props "node.target" = some v := by
  obtain ⟨P, C, hsp, _, hne, _, _⟩ := create_decomp props0 r hc
  obtain ⟨_, _, _, hpb⟩ := create_after_sp_shape P C r hsp
  rw [hpb]
  rw [position_to_props_ne _ _ _ (by decide) (by decide)]
  exact masterStage_target_master P playback_defaults v
    ((hne "master" (by decide) (by decide) (by decide)).trans hm)

/-- Witness for **C9**: both `master=m1` and `source_master=m2` supplied;
playback `node.target` is `m1`. -/
theorem master_precedence_witness :
    create_from_props
        [("plugin", "p"), ("label", "l"), ("master", "m1"),
         ("source_master", "m2")] =
      some ⟨[("plugin", "p"), ("label", "l"), ("source_master", "m2"),
             ("node.name", "null")],
            [("audio.channels", "2"), ("audio.position", "FL,FR"),
             ("node.passive", "true")],
            [("media.class", "Audio/Source"), ("node.target", "m1"),
             ("audio.channels", "2"), ("audio.position", "FL,FR")],
            ⟨0, 2, [3, 4]⟩⟩ ∧
    pw_properties_get
        [("media.class", "Audio/Source"), ("node.target", "m1"),
         ("audio.channels", "2"), ("audio.position", "FL,FR")] "node.target" =
      some "m1" :=
  ⟨by decide,
   master_precedence
     [("plugin", "p"), ("label", "l"), ("master", "m1"),
      ("source_master", "m2")]
     ⟨[("plugin", "p"), ("label", "l"), ("source_master", "m2"),
       ("node.name", "null")],
      [("audio.channels", "2"), ("audio.position", "FL,FR"),
       ("node.passive", "true")],
      [("media.class", "Audio/Source"), ("node.target", "m1"),
       ("audio.channels", "2"), ("audio.position", "FL,FR")],
      ⟨0, 2, [3, 4]⟩⟩
     "m1" "m2" (by decide) (by decide) (by decide)⟩

/-- **C3** (amended): a supplied `master` — or `source_master` when `master`
is absent — becomes the playback `node.target`, and the key `master` is
removed from module props once consumed; but `source_master` is never
removed: the module props keep whatever `source_master` entry the argument
supplied. -/
theorem master_partition_behavior (props0 : Props) (r : CreateResult)
    (v : String) (hnd : keysNodup props0)
    (hc : create_from_props props0 = some r)
    (hv : pw_properties_get props0 "master" = some v ∨
      (pw_properties_get props0 "master" = none ∧
       pw_properties_get props0 "source_master" = some v)) :
    pw_properties_get r.playback_props "node.target" = some v ∧
    pw_properties_get r.props "master" = none ∧
    pw_properties_get r.props "source_master" =
      pw_properties_get props0 "source_master" := by
  obtain ⟨P, C, hsp, _, hne, _, hnodup⟩ := create_decomp props0 r hc
  obtain ⟨hP, _, _⟩ := hnodup hnd
  obtain ⟨_, hpr, _, hpb⟩ := create_after_sp_shape P C r hsp
  have hPm : pw_properties_get P "master" =
      pw_properties_get props0 "master" :=
    hne "master" (by decide) (by decide) (by decide)
  have hPsm : pw_properties_get P "source_master" =
      pw_properties_get props0 "source_master" :=
    hne "source_master" (by decide) (by decide) (by decide)
  refine ⟨?_, ?_, ?_⟩
  · rw [hpb, position_to_props_ne _ _ _ (by decide) (by decide)]
    rcases hv with hm | ⟨hm, hsm⟩
    · exact masterStage_target_master P playback_defaults v (hPm.trans hm)
    · exact masterStage_target_source_master P playback_defaults v
        (hPm.trans hm) (hPsm.trans hsm)
  · rw [hpr]
    exact masterStage_props_master P playback_defaults hP
  · rw [hpr, masterStage_props_ne P playback_defaults "source_master"
      (by decide)]
    exact hPsm

/-- Witness for the amended **C3**: only `source_master=sm` supplied; the
target is set, `master` is absent, and `source_master` survives. -/
theorem master_partition_behavior_witness :
    keysNodup [("plugin", "p"), ("label", "l"), ("source_master", "sm")] ∧
    create_from_props [("plugin", "p"), ("label", "l"),
        ("source_master", "sm")] =
      some ⟨[("plugin", "p"), ("label", "l"), ("source_master", "sm"),
             ("node.name", "null")],
            [("audio.channels", "2"), ("audio.position", "FL,FR"),
             ("node.passive", "true")],
            [("media.class", "Audio/Source"), ("node.target", "sm"),
             ("audio.channels", "2"), ("audio.position", "FL,FR")],
            ⟨0, 2, [3, 4]⟩⟩ ∧
    (pw_properties_get
        [("media.class", "Audio/Source"), ("node.target", "sm"),
         ("audio.channels", "2"), ("audio.position", "FL,FR")] "node.target" =
      some "sm" ∧
     pw_properties_get
        [("plugin", "p"), ("label", "l"), ("source_master", "sm"),
         ("node.name", "null")] "master" = none ∧
     pw_properties_get
        [("plugin", "p"), ("label", "l"), ("source_master", "sm"),
         ("node.name", "null")] "source_master" =
      pw_properties_get [("plugin", "p"), ("label", "l"),
        ("source_master", "sm")] "source_master") :=
  ⟨by decide, by decide,
   master_partition_behavior
     [("plugin", "p"), ("label", "l"), ("source_master", "sm")]
     ⟨[("plugin", "p"), ("label", "l"), ("source_master", "sm"),
       ("node.name", "null")],
      [("audio.channels", "2"), ("audio.position", "FL,FR"),
       ("node.passive", "true")],
      [("media.class", "Audio/Source"), ("node.target", "sm"),
       ("audio.channels", "2"), ("audio.position", "FL,FR")],
      ⟨0, 2, [3, 4]⟩⟩
     "sm" (by decide) (by decide) (Or.inr ⟨by decide, by decide⟩)⟩

/-- **C6**: after partitioning, module props contain none of `source_name`,
`source_properties`, `master`; `node.name` is the supplied `source_name`
value or the literal `"null"`; capture props carry `node.passive = "true"`
unless the nested `source_properties` bag overrode it; and playback props
carry `media.class = "Audio/Source"`. -/
theorem partition_invariants (props0 : Props) (r : CreateResult) (c0 : Props)
    (hnd : keysNodup props0)
    (hc : create_from_props props0 = some r)
    (hnest : nested_source_props props0 = some c0) :
    pw_properties_get r.props "source_name" = none ∧
    pw_properties_get r.props "source_properties" = none ∧
    pw_properties_get r.props "master" = none ∧
    pw_properties_get r.props "node.name" =
      some ((pw_properties_get props0 "source_name").getD "null") ∧
    pw_properties_get r.capture_props "node.passive" =
      some ((pw_properties_get c0 "node.passive").getD "true") ∧
    pw_properties_get r.playback_props "media.class" =
      some "Audio/Source" := by
  obtain ⟨P, C, hsp, hnest2, hne, hnn, hnodup⟩ := create_decomp props0 r hc
  obtain ⟨hP, hsn, hspn⟩ := hnodup hnd
  obtain ⟨_, hpr, hcap, hpb⟩ := create_after_sp_shape P C r hsp
  have hC : c0 = C := by
    rw [hnest] at hnest2
    exact Option.some_inj.mp hnest2
  subst hC
  refine ⟨?_, ?_, ?_, ?_, ?_, ?_⟩
  · rw [hpr, masterStage_props_ne _ _ _ (by decide)]
    exact hsn
  · rw [hpr, masterStage_props_ne _ _ _ (by decide)]
    exact hspn
  · rw [hpr]
    exact masterStage_props_master P playback_defaults hP
  · rw [hpr, masterStage_props_ne _ _ _ (by decide)]
    exact hnn
  · rw [hcap, apply_passive_default_passive,
      position_to_props_ne _ _ _ (by decide) (by decide)]
  · rw [hpb, position_to_props_ne _ _ _ (by decide) (by decide),
      masterStage_playback_ne _ _ _ (by decide)]
    decide

/-- Witness for **C6**: `source_name=mic` with a nested `source_properties`
overriding `node.passive`. -/
theorem partition_invariants_witness :
    keysNodup [("plugin", "p"), ("label", "l"), ("source_name", "mic"),
      ("source_properties", "node.passive=false x=y")] ∧
    create_from_props [("plugin", "p"), ("label", "l"),
        ("source_name", "mic"),
        ("source_properties", "node.passive=false x=y")] =
      some ⟨[("plugin", "p"), ("label", "l"), ("node.name", "mic")],
            [("node.passive", "false"), ("x", "y"), ("audio.channels", "2"),
             ("audio.position", "FL,FR")],
            [("media.class", "Audio/Source"), ("audio.channels", "2"),
             ("audio.position", "FL,FR")],
            ⟨0, 2, [3, 4]⟩⟩ ∧
    nested_source_props [("plugin", "p"), ("label", "l"),
        ("source_name", "mic"),
        ("source_properties", "node.passive=false x=y")] =
      some [("node.passive", "false"), ("x", "y")] ∧
    (pw_properties_get [("plugin", "p"), ("label", "l"),
        ("node.name", "mic")] "source_name" = none ∧
     pw_properties_get [("plugin", "p"), ("label", "l"),
        ("node.name", "mic")] "source_properties" = none ∧
     pw_properties_get [("plugin", "p"), ("label", "l"),
        ("node.name", "mic")] "master" = none ∧
     pw_properties_get [("plugin", "p"), ("label", "l"),
        ("node.name", "mic")] "node.name" =
      some ((pw_properties_get [("plugin", "p"), ("label", "l"),
        ("source_name", "mic"),
        ("source_properties", "node.passive=false x=y")]
          "source_name").getD "null") ∧
     pw_properties_get [("node.passive", "false"), ("x", "y"),
        ("audio.channels", "2"), ("audio.position", "FL,FR")]
          "node.passive" =
      some ((pw_properties_get [("node.passive", "false"), ("x", "y")]
          "node.passive").getD "true") ∧
     pw_properties_get [("media.class", "Audio/Source"),
        ("audio.channels", "2"), ("audio.position", "FL,FR")] "media.class" =
      some "Audio/Source") :=
  ⟨by decide, by decide, by decide,
   partition_invariants
     [("plugin", "p"), ("label", "l"), ("source_name", "mic"),
      ("source_properties", "node.passive=false x=y")]
     ⟨[("plugin", "p"), ("label", "l"), ("node.name", "mic")],
      [("node.passive", "false"), ("x", "y"), ("audio.channels", "2"),
       ("audio.position", "FL,FR")],
      [("media.class", "Audio/Source"), ("audio.channels", "2"),
       ("audio.position", "FL,FR")],
      ⟨0, 2, [3, 4]⟩⟩
     [("node.passive", "false"), ("x", "y")]
     (by decide) (by decide) (by decide)⟩

/-- **C7**: after a successful create, both the capture and the playback bag
carry `audio.channels = <N>` and `audio.position` equal to the
comma-separated canonical names of the `N` resolved channel positions (and
the resolved position list indeed has length `N`). -/
theorem audio_position_written (props0 : Props) (r : CreateResult)
    (hc : create_from_props props0 = some r) :
    r.info.position.length = r.info.channels ∧
    pw_properties_get r.capture_props "audio.channels" =
      some (Nat.repr r.info.channels) ∧
    pw_properties_get r.capture_props "audio.position" =
      some (commaJoin (r.info.position.map channel_id2name)) ∧
    pw_properties_get r.playback_props "audio.channels" =
      some (Nat.repr r.info.channels) ∧
    pw_properties_get r.playback_props "audio.position" =
      some (commaJoin (r.info.position.map channel_id2name)) := by
  obtain ⟨P, C, hsp, _, _, _, _⟩ := create_decomp props0 r hc
  obtain ⟨hinfo, _, hcap, hpb⟩ := create_after_sp_shape P C r hsp
  have hlen := audioinfo_position_length _ _ hinfo
  have hps := positionString_eq r.info hlen
  refine ⟨hlen, ?_, ?_, ?_, ?_⟩
  · rw [hcap, apply_passive_default_ne _ _ (by decide),
      position_to_props_channels]
  · rw [hcap, apply_passive_default_ne _ _ (by decide),
      position_to_props_position, hps]
  · rw [hpb, position_to_props_channels]
  · rw [hpb, position_to_props_position, hps]

/-- Witness for **C7** at `rate=48000 channels=1 channel_map=MONO`. -/
theorem audio_position_written_witness :
    create_from_props [("plugin", "p"), ("label", "l"), ("rate", "48000"),
        ("channels", "1"), ("channel_map", "MONO")] =
      some ⟨[("plugin", "p"), ("label", "l"), ("rate", "48000"),
             ("channels", "1"), ("channel_map", "MONO"),
             ("node.name", "null")],
            [("audio.channels", "1"), ("audio.position", "MONO"),
             ("node.passive", "true")],
            [("media.class", "Audio/Source"), ("audio.channels", "1"),
             ("audio.position", "MONO")],
            ⟨48000, 1, [2]⟩⟩ ∧
    (([2] : List Nat).length = 1 ∧
     pw_properties_get [("audio.channels", "1"), ("audio.position", "MONO"),
        ("node.passive", "true")] "audio.channels" = some (Nat.repr 1) ∧
     pw_properties_get [("audio.channels", "1"), ("audio.position", "MONO"),
        ("node.passive", "true")] "audio.position" =
      some (commaJoin (([2] : List Nat).map channel_id2name)) ∧
     pw_properties_get [("media.class", "Audio/Source"),
        ("audio.channels", "1"), ("audio.position", "MONO")]
          "audio.channels" = some (Nat.repr 1) ∧
     pw_properties_get [("media.class", "Audio/Source"),
        ("audio.channels", "1"), ("audio.position", "MONO")]
          "audio.position" =
      some (commaJoin (([2] : List Nat).map channel_id2name))) :=
  ⟨by decide,
   audio_position_written
     [("plugin", "p"), ("label", "l"), ("rate", "48000"), ("channels", "1"),
      ("channel_map", "MONO")]
     ⟨[("plugin", "p"), ("label", "l"), ("rate", "48000"), ("channels", "1"),
       ("channel_map", "MONO"), ("node.name", "null")],
      [("audio.channels", "1"), ("audio.position", "MONO"),
       ("node.passive", "true")],
      [("media.class", "Audio/Source"), ("audio.channels", "1"),
       ("audio.position", "MONO")],
      ⟨48000, 1, [2]⟩⟩
     (by decide)⟩

theorem escapeList_clean (cs : List Char)
    (h : ∀ c ∈ cs, c ≠ '"' ∧ c ≠ '\\') : escapeList cs = cs := by
  induction cs with
  | nil => rfl
  | cons c t ih =>
      obtain ⟨h1, h2⟩ := h c (by simp)
      have ht : ∀ d ∈ t, d ≠ '"' ∧ d ≠ '\\' := fun d hd => h d (by simp [hd])
      have hcond : ¬ (c = '"' ∨ c = '\\') := by
        rintro (hh | hh)
        exacts [h1 hh, h2 hh]
      simp [escapeList, hcond, ih ht]

/-- **C10**: the `plugin` and `label` values are spliced into the node text
verbatim between double quotes — the document contains exactly
` plugin = "<value>" ` / ` label = "<value>" ` — while a value routed through
the string encoder is escaped: quoting verbatim agrees with the encoder
exactly on values free of double quotes and backslashes, and differs on a
value containing a double quote. -/
theorem plugin_label_verbatim (hostLoad : String → Bool) (hostErrno : Int)
    (idx : Nat) (props capture playback : Props) (p l : String)
    (hp : pw_properties_get props "plugin" = some p)
    (hl : pw_properties_get props "label" = some l) :
    (∃ pre post : String,
      (module_ladspa_source_load hostLoad hostErrno idx props capture
          playback).doc =
        some (pre ++ (" plugin = \"" ++ p ++ "\" " ++
          (" label = \"" ++ l ++ "\" ")) ++ post)) ∧
    (∀ s : String, (∀ c ∈ s.data, c ≠ '"' ∧ c ≠ '\\') →
      spa_json_encode_string s = "\"" ++ s ++ "\"") ∧
    spa_json_encode_string "a\"b" ≠ "\"" ++ "a\"b" ++ "\"" := by
  refine ⟨?_, ?_, by decide⟩
  · unfold module_ladspa_source_load
    dsimp only []
    rw [hp, hl]
    dsimp only []
    refine ⟨"\x7b" ++ serialize_dict (propsDict props) ++
      " filter.graph = \x7b" ++ " nodes = [ \x7b " ++ " type = ladspa ",
      (match pw_properties_get props "inputs" with
       | some s => " inputs = [ " ++ s ++ " ] "
       | none => "") ++
      ((match pw_properties_get props "outputs" with
        | some s => " outputs = [ " ++ s ++ " ] "
        | none => "") ++
       (" \x7d ] \x7d" ++
        (" capture.props = \x7b" ++
         (serialize_dict (propsDict (pw_properties_set capture "node.group"
            (some ("ladspa-source-" ++ Nat.repr idx)))) ++
          (" \x7d playback.props = \x7b" ++
           (serialize_dict (propsDict (pw_properties_set playback
              "node.group" (some ("ladspa-source-" ++ Nat.repr idx)))) ++
            " \x7d \x7d")))))), ?_⟩
    split <;> simp only [strAppend_assoc]
  · intro s hs
    unfold spa_json_encode_string
    rw [escapeList_clean s.data hs]

/-- Witness for **C10**: a label value containing a double quote is still
spliced verbatim. -/
theorem plugin_label_verbatim_witness :
    pw_properties_get [("plugin", "a b"), ("label", "x\"y")] "plugin" =
      some "a b" ∧
    pw_properties_get [("plugin", "a b"), ("label", "x\"y")] "label" =
      some "x\"y" ∧
    ((∃ pre post : String,
      (module_ladspa_source_load (fun _ => true) 5 0
          [("plugin", "a b"), ("label", "x\"y")] [] []).doc =
        some (pre ++ (" plugin = \"" ++ "a b" ++ "\" " ++
          (" label = \"" ++ "x\"y" ++ "\" ")) ++ post)) ∧
    (∀ s : String, (∀ c ∈ s.data, c ≠ '"' ∧ c ≠ '\\') →
      spa_json_encode_string s = "\"" ++ s ++ "\"") ∧
    spa_json_encode_string "a\"b" ≠ "\"" ++ "a\"b" ++ "\"") :=
  ⟨by decide, by decide,
   plugin_label_verbatim (fun _ => true) 5 0
     [("plugin", "a b"), ("label", "x\"y")] [] [] "a b" "x\"y"
     (by decide) (by decide)⟩
